import Mathlib

/-!
Verification development for the hyperproof client library:
a shallow embedding of the request/authentication/pagination core
(`hyperproof/utils.py`, `hyperproof/proof_api.py`, `hyperproof/tasks_api.py`)
together with theorems settling the specified behavioural claims.

Network effects are modelled by passing the outcome of each outbound
HTTP call (a response value, or a transport exception) as an explicit
input; the Python `while True` pagination loops are embedded with an
explicit fuel bound, with a distinguished out-of-fuel result.
-/

namespace Hyperproof

/-- Parsed JSON values, the possible results of `response.json()`. -/
inductive JVal where
  | jnull
  | jbool (b : Bool)
  | jnum (n : Int)
  | jstr (s : String)
  | jarr (elems : List JVal)
  | jobj (fields : List (String × JVal))

/-- The observable parts of a `requests` response object used by the core:
HTTP status code, body text, the Content-Type header (absent when the server
sent none), and the result of `response.json()` (`none` models the parse
raising `ValueError`). -/
structure HttpResponse where
  status : Nat
  text : String
  contentType : Option String
  jsonBody : Option JVal

/-- Python substring containment `pat in s`. -/
def strContains (s pat : String) : Bool :=
  decide (pat.data <:+: s.data)

/-- Embeds `APIClient._parse_json` (utils.py lines 260-276): if the
Content-Type header (defaulted to the empty string when absent) contains
`application/json`, return the parsed JSON body, or an empty dict `{}` when
parsing raises `ValueError`; for any other content type return `{}`. -/
def parse_json (r : HttpResponse) : JVal :=
  if strContains (r.contentType.getD "") "application/json" then
    match r.jsonBody with
    | some v => v
    | none => .jobj []
  else .jobj []

/-- The ResponseEnvelope returned to callers of the dispatcher:
Python `None` (failure), raw body text, or a parsed JSON value. -/
inductive Envelope where
  | pyNone
  | text (s : String)
  | json (v : JVal)

/-- Embeds `APIClient._handle_response` (utils.py lines 235-258):
`response.raise_for_status()` raises `HTTPError` exactly for status codes in
400..599, which the handler catches and converts to `None`; otherwise the raw
body text is returned when `raw` is set, else the `_parse_json` result
(which never raises). -/
def handle_response (r : HttpResponse) (raw : Bool) : Envelope :=
  if 400 ≤ r.status ∧ r.status < 600 then .pyNone
  else if raw then .text r.text
  else .json (parse_json r)

/-- The transport-level exception kinds caught by `_authenticate`
(utils.py line 104): `HTTPError`, `ConnectionError`, `Timeout`,
`RequestException`. -/
inductive TransportExn where
  | httpError
  | connectionError
  | timeout
  | requestException
deriving Repr, DecidableEq

/-- Outcome of an outbound `requests.post` to the token endpoint:
either one of the caught transport exceptions, or a response object. -/
inductive FetchOutcome where
  | exn (e : TransportExn)
  | resp (r : HttpResponse)

/-- Python `dict.get(key)` on a parsed JSON object, specialised to
string-valued fields: returns the value of the first field named `key`.
The token endpoint returns a JSON object whose `access_token` field is a
string; a missing field, a non-object body, or a non-string field value all
yield `none` (Python `None`) here. -/
def JVal.getStr? : JVal → String → Option String
  | .jobj fs, k =>
    match fs.find? (fun p => p.1 == k) with
    | some (_, .jstr s) => some s
    | _ => none
  | _, _ => none

/-- Embeds `APIClient._authenticate` (utils.py lines 70-108), parameterised
by the outcome of the POST to the token endpoint: on status 200 the new
token slot is `response_json.get('access_token')` where `response_json` is
the `_parse_json` result; on any other status, or any caught transport
exception, the slot is set to `None`. The embedding is a total function:
no exception escapes `_authenticate` on these paths. -/
def authenticate (outcome : FetchOutcome) : Option String :=
  match outcome with
  | .exn _ => none
  | .resp r =>
    if r.status = 200 then (parse_json r).getStr? "access_token"
    else none

/-- Python truthiness of an optional string: `None` and the empty string
are falsy, every other string is truthy. -/
def strOptTruthy : Option String → Bool
  | none => false
  | some s => !(s == "")

/-- Python `str()` interpolation of the token slot into the f-string
`f'Bearer {self.access_token}'`: `None` renders as the literal `"None"`. -/
def pyStrOfSlot : Option String → String
  | none => "None"
  | some s => s

/-- The header mapping built by `_get_headers`. -/
structure Headers where
  authorization : String
  contentType : String
deriving Repr, DecidableEq

/-- Result of a `_get_headers` call: the token slot after the call, the
headers returned, and how many authentication attempts were performed. -/
structure HeadersResult where
  newToken : Option String
  headers : Headers
  authAttempts : Nat
deriving Repr, DecidableEq

/-- Embeds `APIClient._get_headers` (utils.py lines 110-126): when the
token slot is falsy (`if not self.access_token`) it calls `_authenticate`
once (whose token-endpoint outcome is the `outcome` argument) and then
builds the headers from the resulting slot; otherwise it builds the headers
from the existing slot with no authentication call. -/
def get_headers (tok : Option String) (outcome : FetchOutcome) : HeadersResult :=
  let refreshed := if strOptTruthy tok then (tok, 0) else (authenticate outcome, 1)
  { newToken := refreshed.1
    headers :=
      { authorization := "Bearer " ++ pyStrOfSlot refreshed.1
        contentType := "application/json" }
    authAttempts := refreshed.2 }

/-- A page envelope as consumed by the pagination loops: the parsed JSON
object returned by `client.get(..., raw=False)`, viewed through the fields
the loop reads. `data`, when present, carries the JSON array of records of
the page (the PageBatch wire contract); `continuationToken`, when present,
carries the continuation string; `otherFields` counts any remaining fields,
so that Python dict truthiness is representable. -/
structure RespObj (α : Type) where
  data : Option (List α)
  continuationToken : Option String
  otherFields : Nat
deriving Repr, DecidableEq

/-- Python truthiness of the page dict: an empty dict is falsy. -/
def RespObj.truthy (r : RespObj α) : Bool :=
  r.data.isSome || r.continuationToken.isSome || decide (r.otherFields ≠ 0)

/-- Outcome of a run of the `get_proof_metadata_collection` pagination loop:
normal return of the accumulated records, or the raised
`ValueError("No data returned from get_proof_metadata_collection.")`;
`calls` is the number of fetch invocations performed.  `outOfFuel` is the
artefact of bounding the `while True` loop by fuel. -/
inductive LoopOutcome (α : Type) where
  | ok (records : List α) (calls : Nat)
  | valueError (calls : Nat)
  | outOfFuel
deriving Repr, DecidableEq

/-- Embeds the `while True` pagination loop of
`ProofAPI.get_proof_metadata_collection` (proof_api.py lines 43-76).
`fetch i tok` models `self.client.get(BASE_URL, "/", params=params, raw=False)`
at the i-th invocation of the run (the index models the evolving state of
the remote server) with `nextToken = tok`; `none` models the dispatcher
returning Python `None`.  Each iteration: if the envelope is falsy
(`not response`) or has no `data` field, raise `ValueError`; otherwise
extend the accumulator with `response.get('data', [])`, read
`response.get('continuationToken', None)`, and stop when it is falsy. -/
def proofCollectionLoop (fetch : Nat → Option String → Option (RespObj α)) :
    Nat → Nat → Option String → List α → LoopOutcome α
  | 0, _, _, _ => .outOfFuel
  | fuel + 1, i, tok, acc =>
    match fetch i tok with
    | none => .valueError (i + 1)
    | some r =>
      if !r.truthy || r.data.isNone then .valueError (i + 1)
      else
        match r.continuationToken with
        | none => .ok (acc ++ r.data.getD []) (i + 1)
        | some t =>
          if t == "" then .ok (acc ++ r.data.getD []) (i + 1)
          else proofCollectionLoop fetch fuel (i + 1) (some t) (acc ++ r.data.getD [])

/-- Embeds `ProofAPI.get_proof_metadata_collection` (proof_api.py lines
29-80): run the pagination loop starting with an empty accumulator and
`next_token = None`.  After the loop the function returns `all_proofs`
whether or not `raw` is set, so the `raw` flag does not affect the result. -/
def get_proof_metadata_collection (fetch : Nat → Option String → Option (RespObj α))
    (fuel : Nat) : LoopOutcome α :=
  proofCollectionLoop fetch fuel 0 none []

/-- The page sequence shape described by the pagination wire contract: every
page carries a `data` field; every page except the last carries a non-empty
continuation token; the last page's continuation field is absent or empty. -/
def ChainPages : List (RespObj α) → Prop
  | [] => True
  | [p] =>
    p.data.isSome = true ∧ (p.continuationToken = none ∨ p.continuationToken = some "")
  | p :: q :: rest =>
    p.data.isSome = true ∧ (∃ t, p.continuationToken = some t ∧ t ≠ "") ∧
      ChainPages (q :: rest)

/-- Outcome of a run of the `get_proof_by_label` pagination loop: normal
termination additionally remembers the envelope of the final page, because
the function returns it when `raw=True`.  `permissionError` models the
raised `PermissionError` (envelope was `None`), `valueError` the raised
`ValueError` (envelope lacked `data`). -/
inductive LabelLoopOutcome (α : Type) where
  | ok (records : List α) (lastResp : RespObj α) (calls : Nat)
  | permissionError (calls : Nat)
  | valueError (calls : Nat)
  | outOfFuel
deriving Repr, DecidableEq

/-- Embeds the `while True` pagination loop of `ProofAPI.get_proof_by_label`
(proof_api.py lines 252-267).  Unlike the collection loop, a `None` envelope
raises `PermissionError`, and only the absence of the `data` field (with no
dict-truthiness test) raises `ValueError`. -/
def proofByLabelLoop (fetch : Nat → Option String → Option (RespObj α)) :
    Nat → Nat → Option String → List α → LabelLoopOutcome α
  | 0, _, _, _ => .outOfFuel
  | fuel + 1, i, tok, acc =>
    match fetch i tok with
    | none => .permissionError (i + 1)
    | some r =>
      if r.data.isNone then .valueError (i + 1)
      else
        match r.continuationToken with
        | none => .ok (acc ++ r.data.getD []) r (i + 1)
        | some t =>
          if t == "" then .ok (acc ++ r.data.getD []) r (i + 1)
          else proofByLabelLoop fetch fuel (i + 1) (some t) (acc ++ r.data.getD [])

/-- A label summary record as read by `get_proof_by_label`:
`label.get('name', '')` and `label.get('id')`. -/
structure LabelSummary where
  name : String
  id : Option String
deriving Repr, DecidableEq

/-- The value returned by a successful `get_proof_by_label` call: the
accumulated record list (`raw=False`) or the final page envelope
(`raw=True`). -/
inductive ProofByLabelReturn (α : Type) where
  | records (rs : List α)
  | envelope (r : RespObj α)
deriving Repr, DecidableEq

/-- Overall result of `get_proof_by_label`, with one constructor per raised
error. -/
inductive ProofByLabelResult (α : Type) where
  | ret (v : ProofByLabelReturn α)
  | noLabelError
  | permissionError
  | valueError
  | outOfFuel
deriving Repr, DecidableEq

/-- Embeds `ProofAPI.get_proof_by_label` (proof_api.py lines 238-269).
`search pat s` models `re.search(pat, s, re.IGNORECASE)` of the external
regex engine; `summaries` is the list returned by
`labels_api.get_label_summaries(raw=False)`; `fetch oid i tok` models
`self.client.get(BASE_URL, "/", params, raw=False)` with `objectId = oid`
at the i-th loop invocation with `nextToken = tok`.  The first summary whose
name matches is selected (`next(..., None)`), else
`ValueError("No label found...")` is raised; then the pagination loop runs,
and the function returns `all_proofs if not raw else response`. -/
def get_proof_by_label (search : String → String → Bool) (label_name : String)
    (summaries : List LabelSummary)
    (fetch : Option String → Nat → Option String → Option (RespObj α))
    (fuel : Nat) (raw : Bool) : ProofByLabelResult α :=
  match summaries.find? (fun l => search label_name l.name) with
  | none => .noLabelError
  | some lbl =>
    match proofByLabelLoop (fetch lbl.id) fuel 0 none [] with
    | .ok recs last _ => .ret (if raw then .envelope last else .records recs)
    | .permissionError _ => .permissionError
    | .valueError _ => .valueError
    | .outOfFuel => .outOfFuel

/-- A query-parameter value as placed in the `params` dict: an integer or a
string. -/
inductive QVal where
  | int (n : Int)
  | str (s : String)
deriving Repr, DecidableEq

/-- Rendering of a parameter value into the query string. -/
def QVal.render : QVal → String
  | .int n => toString n
  | .str s => s

/-- Models the documented encoding of the `params=` argument by the external
`requests` library (the dispatcher `APIClient.get`, utils.py lines 128-153,
forwards the `params` dict to `requests.get` unchanged): entries whose value
is `None` are omitted from the transmitted query string; the remaining
entries are transmitted as key and rendered value. -/
def encodeParams (ps : List (String × Option QVal)) : List (String × String) :=
  ps.filterMap (fun p => p.2.map (fun v => (p.1, QVal.render v)))

/-- Rendering of the transmitted key-value pairs into a query string. -/
def renderQuery (ps : List (String × String)) : String :=
  String.intercalate "&" (ps.map (fun p => p.1 ++ "=" ++ p.2))

/-- Embeds the `params` dict built by `ProofAPI.get_proof_metadata_collection`
(proof_api.py lines 47-54): `limit`, `sortBy`, `sortDirection` always carry
values; `objectType`, `objectId`, `nextToken` carry the optional arguments
and are `None` when those are unset. -/
def proofCollectionParams (limit : Int) (sort_by sort_direction : String)
    (object_type object_id next_token : Option String) :
    List (String × Option QVal) :=
  [("limit", some (.int limit)),
   ("sortBy", some (.str sort_by)),
   ("sortDirection", some (.str sort_direction)),
   ("objectType", object_type.map .str),
   ("objectId", object_id.map .str),
   ("nextToken", next_token.map .str)]

/-- The outgoing body of a POST issued by the dispatcher: either a multipart
file payload (`requests.post(url, headers=..., files=files)`, which carries
no JSON body) or a JSON body (`requests.post(url, headers=..., json=data)`).
`β` is the type of open file handles. -/
inductive OutgoingPost (β : Type) where
  | multipart (files : List (String × β))
  | jsonBody (data : Option (List (String × JVal)))

/-- Python truthiness of the optional `files` dict: `None` and the empty
dict are falsy. -/
def filesTruthy : Option (List (String × β)) → Bool
  | none => false
  | some fs => !fs.isEmpty

/-- Embeds the body selection of `APIClient.post` (utils.py lines 155-183):
`if files:` sends the multipart files and discards `data`; otherwise the
JSON body `data` is sent. -/
def clientPost (data : Option (List (String × JVal)))
    (files : Option (List (String × β))) : OutgoingPost β :=
  if filesTruthy files then .multipart (files.getD []) else .jsonBody data

/-- Embeds `ProofAPI.add_proof` (proof_api.py lines 89-105): the open file
is placed under the `file` field; `objectId` and `objectType` are put into
`data` only when both arguments are truthy; the client `post` is then called
with both `files` and `data`.  The `raw` flag only affects response
handling, not the outgoing request. -/
def add_proof (file : β) (object_id object_type : Option String)
    (raw : Bool) : OutgoingPost β :=
  let data : List (String × JVal) :=
    if strOptTruthy object_id && strOptTruthy object_type then
      [("objectId", .jstr (object_id.getD "")),
       ("objectType", .jstr (object_type.getD ""))]
    else []
  clientPost (some data) (some [("file", file)])

/-- The methods defined on class `APIClient` in utils.py (lines 42-276). -/
def APIClientMethods : List String :=
  ["__init__", "_authenticate", "_get_headers", "get", "post", "put", "patch",
   "_handle_response", "_parse_json"]

/-- Python attribute lookup `getattr(client, name)` on an `APIClient`
instance: succeeds exactly when `name` is among the methods the class
defines, and raises `AttributeError` otherwise. -/
def apiClientGetattr (name : String) : Option String :=
  if name ∈ APIClientMethods then some name else none

/-- Result of a call to `TasksAPI.delete_task_comment`: a ResponseEnvelope,
or a raised `AttributeError` naming the missing attribute. -/
inductive DeleteCallResult where
  | envelope (e : Envelope)
  | attributeError (missing : String)

/-- Embeds `TasksAPI.delete_task_comment` (tasks_api.py lines 239-248): it
evaluates `self.client.delete(self.BASE_URL, f"/{task_id}/comments/{comment_id}",
raw=raw)`, so the attribute `delete` is looked up on the `APIClient`
instance before any HTTP activity; when the lookup fails, `AttributeError`
propagates and no envelope is produced.  (No dispatch is embedded in the
success branch because utils.py defines no `delete` method at all.) -/
def delete_task_comment (task_id comment_id : String) (raw : Bool) :
    DeleteCallResult :=
  match apiClientGetattr "delete" with
  | some _ => .envelope .pyNone
  | none => .attributeError "delete"

/-- C1: the specification claims `APIClient` exposes a `delete` operation, so
that `delete_task_comment` returns a ResponseEnvelope rather than failing;
utils.py defines no `delete` method, so the attribute lookup in
`delete_task_comment` raises `AttributeError` on every call. -/
theorem claim_C1_delete_missing :
    delete_task_comment "t1" "c1" false = .attributeError "delete" ∧
    "delete" ∉ APIClientMethods := by
  refine ⟨rfl, ?_⟩
  decide

/-- C4 counterexample: when the token slot holds the empty string (a set,
non-absent slot), `_get_headers` still performs an authentication attempt,
because the code tests Python truthiness, not absence. -/
theorem claim_C4_counterexample :
    (get_headers (some "") (.exn .timeout)).authAttempts = 1 ∧
    (some "" : Option String) ≠ none := by
  refine ⟨rfl, ?_⟩
  decide

/-- C4 (amended): `_get_headers` performs exactly one authentication attempt
when the token slot is absent or holds the empty string, and performs no
authentication attempt otherwise. -/
theorem claim_C4_reauth_iff_falsy (tok : Option String) (outcome : FetchOutcome) :
    (get_headers tok outcome).authAttempts =
      if tok = none ∨ tok = some "" then 1 else 0 := by
  cases tok with
  | none => rfl
  | some s =>
    by_cases h : s = ""
    · subst h
      rfl
    · simp [get_headers, strOptTruthy, h]

/-- C5: whenever the token endpoint responds with a non-200 status, or one of
the caught transport exceptions occurs, `_authenticate` leaves the token slot
absent; the embedding is a total function, so no exception escapes on these
paths. -/
theorem claim_C5_auth_failure_silent :
    (∀ e : TransportExn, authenticate (.exn e) = none) ∧
    (∀ r : HttpResponse, r.status ≠ 200 → authenticate (.resp r) = none) := by
  refine ⟨fun e => rfl, fun r h => ?_⟩
  simp [authenticate, h]

/-- Witness for C5 at a timeout and at a 500-status response. -/
theorem claim_C5_witness :
    authenticate (.exn .timeout) = none ∧
    authenticate (.resp { status := 500
                          text := "err"
                          contentType := none
                          jsonBody := none }) = none := by
  exact ⟨claim_C5_auth_failure_silent.1 .timeout,
         claim_C5_auth_failure_silent.2 _ (by decide)⟩

/-- C6 counterexample: when re-authentication failed and the token slot is
absent, the Authorization header is the literal `"Bearer None"` (the f-string
renders Python `None` as `"None"`), not `"Bearer "` followed by the empty
string. -/
theorem claim_C6_counterexample :
    (get_headers none (.exn .timeout)).headers.authorization = "Bearer None" ∧
    (get_headers none (.exn .timeout)).newToken = none ∧
    (get_headers none (.exn .timeout)).headers.authorization ≠ "Bearer " := by
  refine ⟨rfl, rfl, ?_⟩
  decide

/-- C6 (amended): every `_get_headers` call returns Content-Type
`application/json`, and an Authorization entry equal to `"Bearer "` followed
by the str() rendering of the post-call token slot: the token itself when the
slot is set, and the literal `"None"` when re-authentication failed and the
slot is absent. -/
theorem claim_C6_bearer_header (tok : Option String) (outcome : FetchOutcome) :
    (get_headers tok outcome).headers.contentType = "application/json" ∧
    (get_headers tok outcome).headers.authorization =
      "Bearer " ++ pyStrOfSlot (get_headers tok outcome).newToken ∧
    (∀ s, (get_headers tok outcome).newToken = some s →
      (get_headers tok outcome).headers.authorization = "Bearer " ++ s) ∧
    ((get_headers tok outcome).newToken = none →
      (get_headers tok outcome).headers.authorization = "Bearer None") := by
  have hbase : (get_headers tok outcome).headers.authorization =
      "Bearer " ++ pyStrOfSlot (get_headers tok outcome).newToken := rfl
  refine ⟨rfl, hbase, ?_, ?_⟩
  · intro s hs
    rw [hbase, hs]
    rfl
  · intro hn
    rw [hbase, hn]
    rfl

/-- Witness for C6 (amended) at a set token and at a failed re-auth. -/
theorem claim_C6_bearer_header_witness :
    (get_headers (some "tok123") (.exn .timeout)).headers.authorization =
      "Bearer " ++ "tok123" ∧
    (get_headers none (.exn .connectionError)).headers.authorization =
      "Bearer None" := by
  exact ⟨(claim_C6_bearer_header (some "tok123") (.exn .timeout)).2.2.1 "tok123" rfl,
         (claim_C6_bearer_header none (.exn .connectionError)).2.2.2 rfl⟩

/-- C8: a 200-status response labelled `application/json` whose body fails
JSON parsing normalises to the empty mapping `{}`, while any 4xx/5xx response
normalises to the absent sentinel `None`; the two failure modes are
distinguishable. -/
theorem claim_C8_malformed_vs_error (r : HttpResponse) :
    (r.status = 200 → strContains (r.contentType.getD "") "application/json" = true →
      r.jsonBody = none → handle_response r false = .json (.jobj [])) ∧
    (400 ≤ r.status → r.status < 600 → ∀ raw, handle_response r raw = .pyNone) := by
  constructor
  · intro h200 hct hjs
    have hne : ¬(400 ≤ r.status ∧ r.status < 600) := by omega
    simp [handle_response, hne, parse_json, hct, hjs]
  · intro h1 h2 raw
    simp [handle_response, h1, h2]

/-- Witness for C8 at a malformed 200 JSON response and at a 404. -/
theorem claim_C8_witness :
    handle_response { status := 200
                      text := "not json"
                      contentType := some "application/json; charset=utf-8"
                      jsonBody := none } false = .json (.jobj []) ∧
    handle_response { status := 404
                      text := "not found"
                      contentType := some "application/json"
                      jsonBody := none } false = .pyNone := by
  exact ⟨(claim_C8_malformed_vs_error _).1 rfl (by decide) rfl,
         (claim_C8_malformed_vs_error _).2 (by decide) (by decide) false⟩

/-- C9: when a truthy `files` payload is supplied, the dispatcher POST sends
only the multipart files and no JSON body even if `data` was provided; in
particular `add_proof` always posts a multipart body holding only the `file`
field, so `objectId` and `objectType` are never transmitted even when both
arguments are set. -/
theorem claim_C9_files_exclusive (β : Type) :
    (∀ (data : Option (List (String × JVal))) (fs : List (String × β)),
      fs ≠ [] → clientPost data (some fs) = .multipart fs) ∧
    (∀ (file : β) (object_id object_type : Option String) (raw : Bool),
      add_proof file object_id object_type raw = .multipart [("file", file)]) := by
  constructor
  · intro data fs h
    cases fs with
    | nil => exact absurd rfl h
    | cons a as => rfl
  · intro file oid otyp raw
    rfl

/-- Witness for C9 at a concrete data-plus-files call and a concrete
`add_proof` call with both object arguments set. -/
theorem claim_C9_witness :
    clientPost (some [("objectId", JVal.jstr "o1")]) (some [("file", (0 : Nat))]) =
      .multipart [("file", 0)] ∧
    add_proof (0 : Nat) (some "o1") (some "control") false =
      .multipart [("file", 0)] := by
  exact ⟨(claim_C9_files_exclusive Nat).1 _ _ (by simp),
         (claim_C9_files_exclusive Nat).2 0 (some "o1") (some "control") false⟩

/-- In a params dict (keys without duplicates), two entries with the same
key carry the same value. -/
theorem key_val_unique {γ : Type} :
    ∀ (ps : List (String × γ)), (ps.map Prod.fst).Nodup →
      ∀ {k : String} {a b : γ}, (k, a) ∈ ps → (k, b) ∈ ps → a = b := by
  intro ps
  induction ps with
  | nil =>
    intro _ k a b ha _
    cases ha
  | cons p rest ih =>
    intro h k a b ha hb
    rw [List.map_cons] at h
    obtain ⟨hp, hrest⟩ := List.nodup_cons.mp h
    rcases List.mem_cons.mp ha with ha1 | ha2 <;>
      rcases List.mem_cons.mp hb with hb1 | hb2
    · rw [← hb1] at ha1
      exact congrArg Prod.snd ha1
    · exfalso
      apply hp
      have hk : k ∈ rest.map Prod.fst := List.mem_map_of_mem Prod.fst hb2
      rw [← ha1]
      exact hk
    · exfalso
      apply hp
      have hk : k ∈ rest.map Prod.fst := List.mem_map_of_mem Prod.fst ha2
      rw [← hb1]
      exact hk
    · exact ih hrest ha2 hb2

/-- C7: in a dispatched GET, a query parameter whose value is `None` is
omitted from the transmitted pairs entirely (it is transmitted under no
value, in particular neither as the empty string nor as the literal
`"None"`), while parameters with non-`None` values are transmitted with
their rendered value; in particular `get_proof_metadata_collection` called
without an `object_type` transmits no `objectType` parameter. -/
theorem claim_C7_none_params_omitted (ps : List (String × Option QVal))
    (hnd : (ps.map Prod.fst).Nodup) (k : String) :
    ((k, none) ∈ ps → ∀ v, (k, v) ∉ encodeParams ps) ∧
    (∀ q, (k, some q) ∈ ps → (k, QVal.render q) ∈ encodeParams ps) ∧
    (∀ (limit : Int) (sb sd : String) (oid tok : Option String) (v : String),
      ("objectType", v) ∉ encodeParams (proofCollectionParams limit sb sd none oid tok)) := by
  refine ⟨?_, ?_, ?_⟩
  · intro hk v hmem
    rw [encodeParams, List.mem_filterMap] at hmem
    obtain ⟨⟨pk, pv⟩, hpmem, hpeq⟩ := hmem
    cases pv with
    | none => simp at hpeq
    | some q =>
      simp only [Option.map_some'] at hpeq
      have hpk : pk = k := congrArg Prod.fst (Option.some.inj hpeq)
      rw [hpk] at hpmem
      have := key_val_unique ps hnd hk hpmem
      cases this
  · intro q hq
    rw [encodeParams, List.mem_filterMap]
    exact ⟨(k, some q), hq, rfl⟩
  · intro limit sb sd oid tok v hmem
    cases oid <;> cases tok <;>
      simp [encodeParams, proofCollectionParams] at hmem

/-- Witness for C7 at the params dict of a collection fetch with all three
optional arguments unset. -/
theorem claim_C7_witness :
    (("objectType", "None") ∉
      encodeParams (proofCollectionParams 500 "uploadedOn" "desc" none none none)) ∧
    ("sortBy", QVal.render (.str "uploadedOn")) ∈
      encodeParams (proofCollectionParams 500 "uploadedOn" "desc" none none none) := by
  exact ⟨(claim_C7_none_params_omitted
            (proofCollectionParams 500 "uploadedOn" "desc" none none none)
            (by decide) "objectType").1 (by decide) "None",
         (claim_C7_none_params_omitted
            (proofCollectionParams 500 "uploadedOn" "desc" none none none)
            (by decide) "sortBy").2.1 (.str "uploadedOn") (by decide)⟩

/-- The invocation count carried by a raised integrity error always exceeds
the index at which the loop step started: errors raised inside the remaining
iterations are attributed to a later fetch. -/
theorem proofCollectionLoop_valueError_lt {α : Type}
    (fetch : Nat → Option String → Option (RespObj α)) :
    ∀ (fuel i : Nat) (tok : Option String) (acc : List α) (c : Nat),
      proofCollectionLoop fetch fuel i tok acc = .valueError c → i < c := by
  intro fuel
  induction fuel with
  | zero =>
    intro i tok acc c h
    simp [proofCollectionLoop] at h
  | succ fuel ih =>
    intro i tok acc c h
    rw [proofCollectionLoop] at h
    cases hf : fetch i tok with
    | none =>
      rw [hf] at h
      simp at h
      omega
    | some r =>
      rw [hf] at h
      simp only [] at h
      by_cases hcond : (!r.truthy || r.data.isNone) = true
      · rw [if_pos hcond] at h
        simp at h
        omega
      · rw [if_neg hcond] at h
        cases hct : r.continuationToken with
        | none =>
          rw [hct] at h
          simp only [] at h
          simp at h
        | some t =>
          rw [hct] at h
          simp only [] at h
          by_cases ht : (t == "") = true
          · rw [if_pos ht] at h
            simp at h
          · rw [if_neg ht] at h
            have := ih (i + 1) (some t) (acc ++ r.data.getD []) c h
            omega

/-- C3: at any iteration of the `get_proof_metadata_collection` pagination
loop, an absent (None) envelope, an envelope lacking the `data` field, and in
particular the empty-mapping envelope, each raise the terminal `ValueError`
with no further fetch performed (the recorded invocation count is exactly
the current one); whereas when the envelope carries a `data` field the loop
never raises at that step (any raised integrity error is attributed to a
strictly later fetch). -/
theorem claim_C3_integrity_error {α : Type}
    (fetch : Nat → Option String → Option (RespObj α))
    (fuel i : Nat) (tok : Option String) (acc : List α) :
    (fetch i tok = none →
      proofCollectionLoop fetch (fuel + 1) i tok acc = .valueError (i + 1)) ∧
    (∀ r : RespObj α, fetch i tok = some r → r.data = none →
      proofCollectionLoop fetch (fuel + 1) i tok acc = .valueError (i + 1)) ∧
    (∀ r : RespObj α, fetch i tok = some r → r.data.isSome = true →
      ∀ c, proofCollectionLoop fetch (fuel + 1) i tok acc = .valueError c →
        i + 1 < c) ∧
    (fetch i tok = some { data := none, continuationToken := none, otherFields := 0 } →
      proofCollectionLoop fetch (fuel + 1) i tok acc = .valueError (i + 1)) := by
  refine ⟨?_, ?_, ?_, ?_⟩
  · intro h
    rw [proofCollectionLoop, h]
  · intro r hr hd
    rw [proofCollectionLoop, hr]
    simp [hd]
  · intro r hr hd c hres
    obtain ⟨d, hd'⟩ := Option.isSome_iff_exists.mp hd
    rw [proofCollectionLoop, hr] at hres
    simp only [] at hres
    have hcond : (!r.truthy || r.data.isNone) = false := by
      simp [RespObj.truthy, hd']
    rw [if_neg (by rw [hcond]; exact Bool.false_ne_true)] at hres
    cases hct : r.continuationToken with
    | none =>
      rw [hct] at hres
      simp only [] at hres
      simp at hres
    | some t =>
      rw [hct] at hres
      simp only [] at hres
      by_cases ht : (t == "") = true
      · rw [if_pos ht] at hres
        simp at hres
      · rw [if_neg ht] at hres
        exact proofCollectionLoop_valueError_lt fetch fuel (i + 1)
          (some t) (acc ++ r.data.getD []) c hres
  · intro h
    rw [proofCollectionLoop, h]
    simp

/-- Witness for C3 at an absent envelope, an empty-mapping envelope, and a
well-formed first page followed by an absent second envelope (the error is
charged to the second fetch). -/
theorem claim_C3_witness :
    proofCollectionLoop (fun _ _ => (none : Option (RespObj Nat))) 1 0 none [] =
      .valueError 1 ∧
    proofCollectionLoop
      (fun _ _ => some ({ data := none
                          continuationToken := none
                          otherFields := 0 } : RespObj Nat)) 1 0 none [] =
      .valueError 1 ∧
    0 + 1 < 2 := by
  refine ⟨(claim_C3_integrity_error _ 0 0 none []).1 rfl,
          (claim_C3_integrity_error _ 0 0 none []).2.2.2 rfl,
          ?_⟩
  exact (claim_C3_integrity_error
      (fun j _ => if j = 0
        then some ({ data := some [5]
                     continuationToken := some "t"
                     otherFields := 0 } : RespObj Nat)
        else none) 1 0 none []).2.2.1 _ rfl rfl 2 (by decide)

/-- Run of the collection pagination loop over a well-formed page chain:
starting at invocation index `i` with accumulator `acc`, it terminates
normally with the accumulator extended by the concatenated page data, after
exactly one fetch per page. -/
theorem proofCollectionLoop_of_chain {α : Type}
    (fetch : Nat → Option String → Option (RespObj α)) :
    ∀ (pages : List (RespObj α)) (i : Nat) (tok : Option String) (acc : List α)
      (fuel : Nat), pages ≠ [] → ChainPages pages → pages.length ≤ fuel →
      (∀ j (hj : j < pages.length) (t : Option String),
        fetch (i + j) t = some (pages.get ⟨j, hj⟩)) →
      proofCollectionLoop fetch fuel i tok acc =
        .ok (acc ++ (pages.map fun p => p.data.getD []).flatten)
          (i + pages.length) := by
  intro pages
  induction pages with
  | nil =>
    intro i tok acc fuel hne
    exact absurd rfl hne
  | cons p rest ih =>
    intro i tok acc fuel _ hchain hfuel hfetch
    cases fuel with
    | zero => simp at hfuel
    | succ fuel =>
      have hfp : fetch i tok = some p := by
        have := hfetch 0 (by simp) tok
        simpa using this
      cases rest with
      | nil =>
        obtain ⟨hdata, htok⟩ := hchain
        obtain ⟨d, hd⟩ := Option.isSome_iff_exists.mp hdata
        rw [proofCollectionLoop, hfp]
        simp only []
        rw [if_neg (by simp [RespObj.truthy, hd])]
        rcases htok with hct | hct <;> rw [hct] <;> simp [hd]
      | cons q rest =>
        obtain ⟨hdata, ⟨t, ht, htne⟩, hchain2⟩ := hchain
        obtain ⟨d, hd⟩ := Option.isSome_iff_exists.mp hdata
        have hstep : proofCollectionLoop fetch (fuel + 1) i tok acc =
            proofCollectionLoop fetch fuel (i + 1) (some t) (acc ++ d) := by
          rw [proofCollectionLoop, hfp]
          simp only []
          rw [if_neg (by simp [RespObj.truthy, hd])]
          rw [ht]
          simp [htne, hd]
        have hfetch2 : ∀ j (hj : j < (q :: rest).length) (tk : Option String),
            fetch (i + 1 + j) tk = some ((q :: rest).get ⟨j, hj⟩) := by
          intro j hj tk
          have hj2 : j + 1 < (p :: q :: rest).length := by
            simpa using Nat.succ_lt_succ hj
          have hcall := hfetch (j + 1) hj2 tk
          rw [show i + (j + 1) = i + 1 + j by omega] at hcall
          simpa using hcall
        have hrun := ih (i + 1) (some t) (acc ++ d) fuel (by simp) hchain2
          (by simp only [List.length_cons] at hfuel ⊢; omega) hfetch2
        rw [hstep, hrun]
        congr 1
        · simp [hd, List.append_assoc]
        · simp only [List.length_cons]
          omega

/-- C2: a pagination run over pages `P1..Pn` (each carrying `data`, the
first `n-1` carrying non-empty continuation tokens and the last one none or
an empty one) performs exactly `n` fetch invocations and returns the
concatenation of the page record lists in order, for any `n ≥ 1`. -/
theorem claim_C2_pagination_concat {α : Type}
    (fetch : Nat → Option String → Option (RespObj α))
    (pages : List (RespObj α)) (fuel : Nat)
    (hne : pages ≠ []) (hchain : ChainPages pages)
    (hfuel : pages.length ≤ fuel)
    (hfetch : ∀ j (hj : j < pages.length) (t : Option String),
      fetch j t = some (pages.get ⟨j, hj⟩)) :
    get_proof_metadata_collection fetch fuel =
      .ok ((pages.map fun p => p.data.getD []).flatten) pages.length := by
  have hrun := proofCollectionLoop_of_chain fetch pages 0 none [] fuel hne hchain
    hfuel (by intro j hj t; simpa using hfetch j hj t)
  simpa [get_proof_metadata_collection] using hrun

/-- Witness for C2: two pages of records `[1, 2]` and `[3]`, the first
carrying continuation token `t1`, the second none; the run returns
`[1, 2, 3]` after exactly 2 fetches. -/
theorem claim_C2_witness :
    get_proof_metadata_collection
      (fun j _ => ([{ data := some [1, 2]
                      continuationToken := some "t1"
                      otherFields := 0 },
                    { data := some [3]
                      continuationToken := none
                      otherFields := 0 }] : List (RespObj Nat)).get? j) 2 =
      .ok [1, 2, 3] 2 := by
  have h := claim_C2_pagination_concat
    (fun j _ => ([{ data := some [1, 2]
                    continuationToken := some "t1"
                    otherFields := 0 },
                  { data := some [3]
                    continuationToken := none
                    otherFields := 0 }] : List (RespObj Nat)).get? j)
    [{ data := some [1, 2]
       continuationToken := some "t1"
       otherFields := 0 },
     { data := some [3]
       continuationToken := none
       otherFields := 0 }] 2 (by simp)
    (⟨rfl, ⟨"t1", rfl, by decide⟩, rfl, Or.inl rfl⟩)
    (by simp)
    (by intro j hj t
        simp only [List.length_cons, List.length_nil] at hj
        interval_cases j <;> rfl)
  simpa using h

/-- Run of the by-label pagination loop over a well-formed page chain: it
terminates normally with the concatenated page data, remembering the final
page envelope, after exactly one fetch per page. -/
theorem proofByLabelLoop_of_chain {α : Type}
    (fetch : Nat → Option String → Option (RespObj α)) :
    ∀ (pages : List (RespObj α)) (i : Nat) (tok : Option String) (acc : List α)
      (fuel : Nat) (hne : pages ≠ []), ChainPages pages → pages.length ≤ fuel →
      (∀ j (hj : j < pages.length) (t : Option String),
        fetch (i + j) t = some (pages.get ⟨j, hj⟩)) →
      proofByLabelLoop fetch fuel i tok acc =
        .ok (acc ++ (pages.map fun p => p.data.getD []).flatten)
          (pages.getLast hne) (i + pages.length) := by
  intro pages
  induction pages with
  | nil =>
    intro i tok acc fuel hne
    exact absurd rfl hne
  | cons p rest ih =>
    intro i tok acc fuel hne hchain hfuel hfetch
    cases fuel with
    | zero => simp at hfuel
    | succ fuel =>
      have hfp : fetch i tok = some p := by
        have := hfetch 0 (by simp) tok
        simpa using this
      cases rest with
      | nil =>
        obtain ⟨hdata, htok⟩ := hchain
        obtain ⟨d, hd⟩ := Option.isSome_iff_exists.mp hdata
        rw [proofByLabelLoop, hfp]
        simp only []
        rw [if_neg (by simp [hd])]
        rcases htok with hct | hct <;> rw [hct] <;> simp [hd, List.getLast]
      | cons q rest =>
        obtain ⟨hdata, ⟨t, ht, htne⟩, hchain2⟩ := hchain
        obtain ⟨d, hd⟩ := Option.isSome_iff_exists.mp hdata
        have hstep : proofByLabelLoop fetch (fuel + 1) i tok acc =
            proofByLabelLoop fetch fuel (i + 1) (some t) (acc ++ d) := by
          rw [proofByLabelLoop, hfp]
          simp only []
          rw [if_neg (by simp [hd])]
          rw [ht]
          simp [htne, hd]
        have hfetch2 : ∀ j (hj : j < (q :: rest).length) (tk : Option String),
            fetch (i + 1 + j) tk = some ((q :: rest).get ⟨j, hj⟩) := by
          intro j hj tk
          have hj2 : j + 1 < (p :: q :: rest).length := by
            simpa using Nat.succ_lt_succ hj
          have hcall := hfetch (j + 1) hj2 tk
          rw [show i + (j + 1) = i + 1 + j by omega] at hcall
          simpa using hcall
        have hrun := ih (i + 1) (some t) (acc ++ d) fuel (by simp) hchain2
          (by simp only [List.length_cons] at hfuel ⊢; omega) hfetch2
        rw [hstep, hrun]
        congr 1
        · simp [hd, List.append_assoc]
        · simp only [List.length_cons]
          omega

/-- C10: a successful `get_proof_by_label` run whose pagination spans the
page chain `P1..Pn` returns, with `raw=False`, the concatenation of all
pages' records, but with `raw=True` only the envelope of the final page. -/
theorem claim_C10_raw_returns_last_page {α : Type}
    (search : String → String → Bool) (label_name : String)
    (summaries : List LabelSummary) (lbl : LabelSummary)
    (hfind : summaries.find? (fun l => search label_name l.name) = some lbl)
    (fetch : Option String → Nat → Option String → Option (RespObj α))
    (pages : List (RespObj α)) (fuel : Nat)
    (hne : pages ≠ []) (hchain : ChainPages pages)
    (hfuel : pages.length ≤ fuel)
    (hfetch : ∀ j (hj : j < pages.length) (t : Option String),
      fetch lbl.id j t = some (pages.get ⟨j, hj⟩)) :
    get_proof_by_label search label_name summaries fetch fuel false =
      .ret (.records ((pages.map fun p => p.data.getD []).flatten)) ∧
    get_proof_by_label search label_name summaries fetch fuel true =
      .ret (.envelope (pages.getLast hne)) := by
  have hrun := proofByLabelLoop_of_chain (fetch lbl.id) pages 0 none [] fuel hne
    hchain hfuel (by intro j hj t; simpa using hfetch j hj t)
  constructor <;> simp [get_proof_by_label, hfind, hrun]

/-- Witness for C10: one matching label and two pages of records `[7]` and
`[8]`; with `raw=False` the run returns `[7, 8]`, with `raw=True` it returns
only the final page envelope. -/
theorem claim_C10_witness :
    get_proof_by_label (fun _ _ => true) "soc"
      [{ name := "SOC 2", id := some "lid" }]
      (fun _ j _ => ([{ data := some [7]
                        continuationToken := some "t1"
                        otherFields := 0 },
                      { data := some [8]
                        continuationToken := none
                        otherFields := 0 }] : List (RespObj Nat)).get? j)
      2 false = .ret (.records [7, 8]) ∧
    get_proof_by_label (fun _ _ => true) "soc"
      [{ name := "SOC 2", id := some "lid" }]
      (fun _ j _ => ([{ data := some [7]
                        continuationToken := some "t1"
                        otherFields := 0 },
                      { data := some [8]
                        continuationToken := none
                        otherFields := 0 }] : List (RespObj Nat)).get? j)
      2 true = .ret (.envelope { data := some [8]
                                 continuationToken := none
                                 otherFields := 0 }) := by
  have h := claim_C10_raw_returns_last_page (fun _ _ => true) "soc"
    [{ name := "SOC 2", id := some "lid" }] { name := "SOC 2", id := some "lid" }
    rfl
    (fun _ j _ => ([{ data := some [7]
                      continuationToken := some "t1"
                      otherFields := 0 },
                    { data := some [8]
                      continuationToken := none
                      otherFields := 0 }] : List (RespObj Nat)).get? j)
    [{ data := some [7]
       continuationToken := some "t1"
       otherFields := 0 },
     { data := some [8]
       continuationToken := none
       otherFields := 0 }] 2 (by simp)
    (⟨rfl, ⟨"t1", rfl, by decide⟩, rfl, Or.inl rfl⟩)
    (by simp)
    (by intro j hj t
        simp only [List.length_cons, List.length_nil] at hj
        interval_cases j <;> rfl)
  exact ⟨by simpa using h.1, by simpa using h.2⟩

end Hyperproof
